import Mathlib

/-!
Verification of the K2-Zephyr command pipeline.

Shallow embedding of the core pipeline of the firmware:
* the CRC-32 integrity codec (`net.c`, `crc32_table` / `calculate_crc32`),
* the ingress worker's per-datagram processing (`net.c`, `udp_server_thread`),
* the payload decoder and command builder (`control.c`, `rov_send_command`),
* the control worker's per-command dispatch (`control.c`, `rov_control_thread`),
* the bounded command queue (a Zephyr `k_msgq`; modelled from the spec's
  contract, since the kernel primitive's source is not part of the repository).

Machine integers are modelled as `Nat` (with explicit masking where the C code
masks) and `Int` with explicit two's-complement wrapping for `int8_t`.
-/

namespace K2

/-! ## Integrity codec (net.c lines 47–91, 229–241)

`crc32_table` is the precomputed 256-entry table from `net.c`, transcribed
verbatim; `calculate_crc32` is the table-driven loop of `net.c:229-241`.
-/

def crc32_table : List Nat := [
  0x00000000, 0x77073096, 0xEE0E612C, 0x990951BA, 0x076DC419, 0x706AF48F,
  0xE963A535, 0x9E6495A3, 0x0EDB8832, 0x79DCB8A4, 0xE0D5E91E, 0x97D2D988,
  0x09B64C2B, 0x7EB17CBD, 0xE7B82D07, 0x90BF1D91, 0x1DB71064, 0x6AB020F2,
  0xF3B97148, 0x84BE41DE, 0x1ADAD47D, 0x6DDDE4EB, 0xF4D4B551, 0x83D385C7,
  0x136C9856, 0x646BA8C0, 0xFD62F97A, 0x8A65C9EC, 0x14015C4F, 0x63066CD9,
  0xFA0F3D63, 0x8D080DF5, 0x3B6E20C8, 0x4C69105E, 0xD56041E4, 0xA2677172,
  0x3C03E4D1, 0x4B04D447, 0xD20D85FD, 0xA50AB56B, 0x35B5A8FA, 0x42B2986C,
  0xDBBBC9D6, 0xACBCF940, 0x32D86CE3, 0x45DF5C75, 0xDCD60DCF, 0xABD13D59,
  0x26D930AC, 0x51DE003A, 0xC8D75180, 0xBFD06116, 0x21B4F4B5, 0x56B3C423,
  0xCFBA9599, 0xB8BDA50F, 0x2802B89E, 0x5F058808, 0xC60CD9B2, 0xB10BE924,
  0x2F6F7C87, 0x58684C11, 0xC1611DAB, 0xB6662D3D, 0x76DC4190, 0x01DB7106,
  0x98D220BC, 0xEFD5102A, 0x71B18589, 0x06B6B51F, 0x9FBFE4A5, 0xE8B8D433,
  0x7807C9A2, 0x0F00F934, 0x9609A88E, 0xE10E9818, 0x7F6A0DBB, 0x086D3D2D,
  0x91646C97, 0xE6635C01, 0x6B6B51F4, 0x1C6C6162, 0x856530D8, 0xF262004E,
  0x6C0695ED, 0x1B01A57B, 0x8208F4C1, 0xF50FC457, 0x65B0D9C6, 0x12B7E950,
  0x8BBEB8EA, 0xFCB9887C, 0x62DD1DDF, 0x15DA2D49, 0x8CD37CF3, 0xFBD44C65,
  0x4DB26158, 0x3AB551CE, 0xA3BC0074, 0xD4BB30E2, 0x4ADFA541, 0x3DD895D7,
  0xA4D1C46D, 0xD3D6F4FB, 0x4369E96A, 0x346ED9FC, 0xAD678846, 0xDA60B8D0,
  0x44042D73, 0x33031DE5, 0xAA0A4C5F, 0xDD0D7CC9, 0x5005713C, 0x270241AA,
  0xBE0B1010, 0xC90C2086, 0x5768B525, 0x206F85B3, 0xB966D409, 0xCE61E49F,
  0x5EDEF90E, 0x29D9C998, 0xB0D09822, 0xC7D7A8B4, 0x59B33D17, 0x2EB40D81,
  0xB7BD5C3B, 0xC0BA6CAD, 0xEDB88320, 0x9ABFB3B6, 0x03B6E20C, 0x74B1D29A,
  0xEAD54739, 0x9DD277AF, 0x04DB2615, 0x73DC1683, 0xE3630B12, 0x94643B84,
  0x0D6D6A3E, 0x7A6A5AA8, 0xE40ECF0B, 0x9309FF9D, 0x0A00AE27, 0x7D079EB1,
  0xF00F9344, 0x8708A3D2, 0x1E01F268, 0x6906C2FE, 0xF762575D, 0x806567CB,
  0x196C3671, 0x6E6B06E7, 0xFED41B76, 0x89D32BE0, 0x10DA7A5A, 0x67DD4ACC,
  0xF9B9DF6F, 0x8EBEEFF9, 0x17B7BE43, 0x60B08ED5, 0xD6D6A3E8, 0xA1D1937E,
  0x38D8C2C4, 0x4FDFF252, 0xD1BB67F1, 0xA6BC5767, 0x3FB506DD, 0x48B2364B,
  0xD80D2BDA, 0xAF0A1B4C, 0x36034AF6, 0x41047A60, 0xDF60EFC3, 0xA867DF55,
  0x316E8EEF, 0x4669BE79, 0xCB61B38C, 0xBC66831A, 0x256FD2A0, 0x5268E236,
  0xCC0C7795, 0xBB0B4703, 0x220216B9, 0x5505262F, 0xC5BA3BBE, 0xB2BD0B28,
  0x2BB45A92, 0x5CB36A04, 0xC2D7FFA7, 0xB5D0CF31, 0x2CD99E8B, 0x5BDEAE1D,
  0x9B64C2B0, 0xEC63F226, 0x756AA39C, 0x026D930A, 0x9C0906A9, 0xEB0E363F,
  0x72076785, 0x05005713, 0x95BF4A82, 0xE2B87A14, 0x7BB12BAE, 0x0CB61B38,
  0x92D28E9B, 0xE5D5BE0D, 0x7CDCEFB7, 0x0BDBDF21, 0x86D3D2D4, 0xF1D4E242,
  0x68DDB3F8, 0x1FDA836E, 0x81BE16CD, 0xF6B9265B, 0x6FB077E1, 0x18B74777,
  0x88085AE6, 0xFF0F6A70, 0x66063BCA, 0x11010B5C, 0x8F659EFF, 0xF862AE69,
  0x616BFFD3, 0x166CCF45, 0xA00AE278, 0xD70DD2EE, 0x4E048354, 0x3903B3C2,
  0xA7672661, 0xD06016F7, 0x4969474D, 0x3E6E77DB, 0xAED16A4A, 0xD9D65ADC,
  0x40DF0B66, 0x37D83BF0, 0xA9BCAE53, 0xDEBB9EC5, 0x47B2CF7F, 0x30B5FFE9,
  0xBDBDF21C, 0xCABAC28A, 0x53B39330, 0x24B4A3A6, 0xBAD03605, 0xCDD70693,
  0x54DE5729, 0x23D967BF, 0xB3667A2E, 0xC4614AB8, 0x5D681B02, 0x2A6F2B94,
  0xB40BBE37, 0xC30C8EA1, 0x5A05DF1B, 0x2D02EF8D]

/-- One iteration of the table-driven loop body of `calculate_crc32`
(`net.c:236-237`): `index = (crc ^ byte) & 0xFF; crc = (crc >> 8) ^ table[index]`. -/
def crc32_update (crc b : Nat) : Nat :=
  (crc >>> 8) ^^^ crc32_table.getD ((crc ^^^ b) &&& 0xFF) 0

/-- `calculate_crc32` from `net.c:229-241`: register starts at `0xFFFFFFFF`,
each byte is folded through the table, and the final register is complemented
(`~crc`, modelled as xor with the 32-bit all-ones mask). -/
def calculate_crc32 (data : List Nat) : Nat :=
  (data.foldl crc32_update 0xFFFFFFFF) ^^^ 0xFFFFFFFF

/-! ### Reference IEEE 802.3 CRC-32 (bit-serial)

The spec's reference implementation (spec §4.1): polynomial `0xEDB88320`
applied least-significant-bit-first, one bit per step, eight steps per byte. -/

/-- One bit-serial CRC step: shift right one bit and, if the bit shifted out
was set, xor in the reversed IEEE 802.3 polynomial `0xEDB88320`. -/
def crcBitStep (crc : Nat) : Nat :=
  if crc % 2 = 1 then (crc >>> 1) ^^^ 0xEDB88320 else crc >>> 1

/-- Bit-serial processing of one byte: xor the byte into the low bits of the
register, then run eight bit steps. -/
def crcRefByte (crc b : Nat) : Nat :=
  crcBitStep^[8] (crc ^^^ b)

/-- Reference IEEE 802.3 CRC-32: initial register `0xFFFFFFFF`, bit-serial
LSB-first reduction per byte, final one's complement. -/
def crc32_ref (data : List Nat) : Nat :=
  (data.foldl crcRefByte 0xFFFFFFFF) ^^^ 0xFFFFFFFF


/-! ## Command data model (`control.h:11-21`)

`int8_t` fields are modelled as `Int` carrying values in `[-128, 127]`,
`uint8_t` fields as `Nat` values in `[0, 255]`. -/

structure RovCommand where
  sequence : Nat
  surge : Int
  sway : Int
  heave : Int
  roll : Int
  pitch : Int
  yaw : Int
  light : Nat
  manipulator : Nat
deriving DecidableEq

/-! ## Command queue

The queue itself is a Zephyr `k_msgq`
(`K_MSGQ_DEFINE(rov_command_queue, sizeof(rov_command_t), 10, 4)`,
`control.c:15`); the kernel primitive's implementation is not part of this
repository, so its behaviour is modelled from the spec's contract. -/

/-- Modelled from the spec: the Command Queue (§3, §4.3) — an ordered,
capacity-bounded FIFO of commands; the `k_msgq` internals are Zephyr kernel
code outside this repository. -/
structure CommandQueue where
  items : List RovCommand
deriving DecidableEq

/-- Queue capacity, from `K_MSGQ_DEFINE(..., 10, 4)` in `control.c:15`. -/
def QUEUE_CAPACITY : Nat := 10

/-- Modelled from the spec: `put` (§4.3) — non-blocking
(`k_msgq_put(..., K_NO_WAIT)`, `control.c:168`): appends and succeeds below
capacity, fails and leaves the queue unchanged at capacity. `true` models the
kernel call returning 0. -/
def CommandQueue.put (q : CommandQueue) (c : RovCommand) : CommandQueue × Bool :=
  if q.items.length < QUEUE_CAPACITY then (⟨q.items ++ [c]⟩, true) else (q, false)

/-- Modelled from the spec: `take` (§4.3) — blocking
(`k_msgq_get(..., K_FOREVER)`, `control.c:81`): removes and returns the oldest
item; `none` models the consumer still blocked on an empty queue. -/
def CommandQueue.take (q : CommandQueue) : Option (RovCommand × CommandQueue) :=
  match q.items with
  | [] => none
  | c :: rest => some (c, ⟨rest⟩)

/-! ## Observable events

Log lines, driver calls, LED toggles, sleeps and queue traffic emitted by the
two workers, in program order. -/

inductive Event
  | logPacket (sequence payload crc : Nat)
  | logCalcCrc (crc : Nat)
  | logCrcMatch
  | logCrcMismatch (computed transmitted : Nat)
  | logWrongSize (got : Nat)
  | logRecvError (code : Int)
  | ledToggle
  | sleepMs (ms : Nat)
  | enqueued (c : RovCommand)
  | logDrop (sequence : Nat)
  | logQueued (sequence : Nat)
  | sendReply (payload : List Nat)
  | callSixDof (surge sway heave roll pitch yaw : Int)
  | setLight (brightness : Nat)
  | setManipulator (position : Nat)
deriving DecidableEq

/-! ## Packet decoder and command send (`control.c:152-173`) -/

/-- Raw byte `i` of the 64-bit payload: `(payload >> (8*i)) & 0xFF`. -/
def byteAt (payload i : Nat) : Nat := (payload >>> (8 * i)) &&& 0xFF

/-- The C cast `(int8_t)b` of a byte value (two's-complement reinterpretation). -/
def int8OfByte (b : Nat) : Int := if b % 256 < 128 then (b % 256 : Nat) else (b % 256 : Nat) - 256

/-- Two's-complement wrap into the `int8_t` range `[-128, 127]`, as performed
when the `int` result of `(int8_t)(...) - 128` is stored into an `int8_t`
struct field. -/
def wrapInt8 (x : Int) : Int := (x + 128) % 256 - 128

/-- Axis decoding from `rov_send_command` (`control.c:158-163`):
`(int8_t)((payload >> (8*i)) & 0xFF) - 128`, stored into an `int8_t` field. -/
def decodeAxis (payload i : Nat) : Int := wrapInt8 (int8OfByte (byteAt payload i) - 128)

/-- The command assembled by `rov_send_command` (`control.c:154-165`): six
axes from payload bytes 0–5, `light` from byte 6, `manipulator` from byte 7. -/
def buildCommand (sequence payload : Nat) : RovCommand where
  sequence := sequence
  surge := decodeAxis payload 0
  sway := decodeAxis payload 1
  heave := decodeAxis payload 2
  roll := decodeAxis payload 3
  pitch := decodeAxis payload 4
  yaw := decodeAxis payload 5
  light := byteAt payload 6
  manipulator := byteAt payload 7

/-- `rov_send_command` (`control.c:152-173`): build the command from the
payload, attempt a non-blocking enqueue, and log a drop when the queue
refuses it (no retry, no blocking). -/
def rov_send_command (q : CommandQueue) (sequence payload : Nat) :
    CommandQueue × List Event :=
  let command := buildCommand sequence payload
  let r := q.put command
  if r.2 then (r.1, [Event.enqueued command, Event.logQueued sequence])
  else (r.1, [Event.logDrop sequence])

/-! ## Byte-order conversion (little-endian Cortex-M7 host) -/

/-- Little-endian value of a byte list, as a packed struct field is read from
memory on the little-endian Cortex-M7 target. -/
def leValue (l : List Nat) : Nat := l.foldr (fun b acc => b + 256 * acc) 0

/-- `ntohl` on a little-endian host: the 32-bit byte swap. -/
def ntohl (x : Nat) : Nat :=
  (x % 256) * 16777216 + (x / 256 % 256) * 65536 + (x / 65536 % 256) * 256 +
    x / 16777216 % 256

/-- `net_to_host_64` (`net.c:248-255`) on a little-endian host:
`__builtin_bswap64`, the 64-bit byte swap. -/
def net_to_host_64 (x : Nat) : Nat :=
  (x % 256) * 72057594037927936 + (x / 256 % 256) * 281474976710656 +
    (x / 65536 % 256) * 1099511627776 + (x / 16777216 % 256) * 4294967296 +
    (x / 4294967296 % 256) * 16777216 + (x / 1099511627776 % 256) * 65536 +
    (x / 281474976710656 % 256) * 256 + x / 72057594037927936 % 256

/-- Network-order (big-endian) value of a byte list: the spec's reading of a
multi-byte wire field (§6). -/
def beValue (l : List Nat) : Nat := l.foldl (fun acc b => acc * 256 + b) 0

/-! ## Ingress worker (`net.c:262-339`) -/

/-- Outcome of one `zsock_recvfrom` call: a datagram of raw bytes, or a
negative error code. -/
inductive RecvResult
  | data (bytes : List Nat)
  | fail (code : Int)

/-- One iteration of the receive loop of `udp_server_thread`
(`net.c:298-338`), acting on the command queue and emitting that iteration's
observable events in program order. The CRC is computed over the first 12 raw
received bytes (`calculate_crc32(&packet, 12)` on the packed struct), while
the compared `recv_crc` is the struct's checksum field after `ntohl`. Note
that the CRC-match branch (`net.c:321-323`) only logs and toggles the LED; it
contains no call to `rov_send_command`, so no branch touches the queue. -/
def ingressStep (q : CommandQueue) (r : RecvResult) : CommandQueue × List Event :=
  match r with
  | RecvResult.fail code => (q, [Event.logRecvError code, Event.sleepMs 100])
  | RecvResult.data d =>
    if d.length = 16 then
      let recv_sequence := ntohl (leValue (d.take 4))
      let recv_payload := net_to_host_64 (leValue ((d.drop 4).take 8))
      let recv_crc := ntohl (leValue (d.drop 12))
      let calculated_crc := calculate_crc32 (d.take 12)
      if calculated_crc = recv_crc then
        (q, [Event.logPacket recv_sequence recv_payload recv_crc,
             Event.logCalcCrc calculated_crc, Event.logCrcMatch, Event.ledToggle])
      else
        (q, [Event.logPacket recv_sequence recv_payload recv_crc,
             Event.logCalcCrc calculated_crc,
             Event.logCrcMismatch calculated_crc recv_crc])
    else
      (q, [Event.logWrongSize d.length])

/-! ## Control worker (`control.c:26-105`) -/

/-- `rov_6dof_control` (`control.c:26-41`): the six-axis actuation strategy
hook (the thruster mixing itself is a stub). -/
def rov_6dof_control (surge sway heave roll pitch yaw : Int) : List Event :=
  [Event.callSixDof surge sway heave roll pitch yaw]

/-- `rov_set_light` (`control.c:46-52`): drives the light only for a positive
brightness. -/
def rov_set_light (brightness : Nat) : List Event :=
  if brightness > 0 then [Event.setLight brightness] else []

/-- `rov_set_manipulator` (`control.c:57-63`): drives the manipulator only
for a positive position. -/
def rov_set_manipulator (position : Nat) : List Event :=
  if position > 0 then [Event.setManipulator position] else []

/-- The loop body of `rov_control_thread` (`control.c:81-103`) applied to one
command taken from the queue: six-axis dispatch, conditional light and
manipulator calls, one LED toggle, then a fixed 10 ms delay. -/
def processCommand (command : RovCommand) : List Event :=
  rov_6dof_control command.surge command.sway command.heave
      command.roll command.pitch command.yaw
    ++ (if command.light > 0 then rov_set_light command.light else [])
    ++ (if command.manipulator > 0 then rov_set_manipulator command.manipulator else [])
    ++ [Event.ledToggle, Event.sleepMs 10]

/-! ## Interleavings of queue operations -/

/-- A completed producer/consumer operation on the command queue: a `put`
attempt by the ingress side, or a completed `take` by the control side. -/
inductive QueueOp
  | put (c : RovCommand)
  | take

/-- Run a sequence of interleaved operations against a queue state, returning
the final queue, the commands returned by `take` in completion order, and the
commands successfully enqueued in `put` order. A `take` on an empty queue
leaves no trace (the consumer is still blocked). -/
def runOps : List QueueOp → CommandQueue → CommandQueue × List RovCommand × List RovCommand
  | [], q => (q, [], [])
  | QueueOp.put c :: rest, q =>
    let r := q.put c
    let s := runOps rest r.1
    (s.1, s.2.1, if r.2 then c :: s.2.2 else s.2.2)
  | QueueOp.take :: rest, q =>
    match q.take with
    | none => runOps rest q
    | some (c, q') =>
      let s := runOps rest q'
      (s.1, c :: s.2.1, s.2.2)

/-! ## Concrete inputs and event classifiers -/

/-- `true` exactly on the event of a successful queue insertion. -/
def Event.isQueueInsert : Event → Bool
  | Event.enqueued _ => true
  | _ => false

/-- `true` exactly on a reply sent back over the socket (the final `net.c`
revision sends none; the constructor exists so absence is expressible). -/
def Event.isSend : Event → Bool
  | Event.sendReply _ => true
  | _ => false

/-- A structurally valid 16-byte wire packet: `sequence = 0`, `payload = 0`,
and trailing checksum bytes `7B D5 C6 6F`, the network-order encoding of
`calculate_crc32` over the first 12 bytes. -/
def validPacket : List Nat :=
  [0, 0, 0, 0, 0, 0, 0, 0, 0, 0, 0, 0, 0x7B, 0xD5, 0xC6, 0x6F]

/-- A command queue holding `QUEUE_CAPACITY` pending commands. -/
def fullQueue : CommandQueue := ⟨List.replicate 10 (buildCommand 0 0)⟩

/-- The canonical CRC-32 check vector, the ASCII bytes of `"123456789"`. -/
def crcCheckVector : List Nat :=
  [0x31, 0x32, 0x33, 0x34, 0x35, 0x36, 0x37, 0x38, 0x39]

/-! ## Helper lemmas -/

/-! ### Equivalence of the table-driven and bit-serial CRC computations -/

lemma xor_shiftRight (a c n : Nat) : (a ^^^ c) >>> n = (a >>> n) ^^^ (c >>> n) := by
  apply Nat.eq_of_testBit_eq
  intro i
  simp [Nat.testBit_shiftRight, Nat.testBit_xor]

lemma xor_left_comm (a b c : Nat) : a ^^^ (b ^^^ c) = b ^^^ (a ^^^ c) := by
  rw [← Nat.xor_assoc, Nat.xor_comm a b, Nat.xor_assoc]

lemma mod_two_xor (a c : Nat) : (a ^^^ c) % 2 = (a % 2 + c % 2) % 2 := by
  have h := Nat.testBit_xor a c 0
  simp only [Nat.testBit_zero] at h
  rcases Nat.mod_two_eq_zero_or_one a with ha | ha <;>
    rcases Nat.mod_two_eq_zero_or_one c with hc | hc <;>
    simp [ha, hc] at h ⊢ <;> omega

/-- The bit-serial step is xor-linear. -/
lemma crcBitStep_xor (a c : Nat) : crcBitStep (a ^^^ c) = crcBitStep a ^^^ crcBitStep c := by
  unfold crcBitStep
  have hm := mod_two_xor a c
  rcases Nat.mod_two_eq_zero_or_one a with ha | ha <;>
    rcases Nat.mod_two_eq_zero_or_one c with hc | hc <;>
    simp [ha, hc] at hm <;>
    simp [ha, hc, hm, xor_shiftRight, Nat.xor_assoc, Nat.xor_comm, xor_left_comm]

lemma crcBitStep_iterate_xor (k a c : Nat) :
    crcBitStep^[k] (a ^^^ c) = crcBitStep^[k] a ^^^ crcBitStep^[k] c := by
  induction k generalizing a c with
  | zero => rfl
  | succ n ih => simp [Function.iterate_succ_apply, crcBitStep_xor, ih]

lemma crcBitStep_mul_two (m : Nat) : crcBitStep (m * 2) = m := by
  unfold crcBitStep
  have h2 : m * 2 % 2 = 0 := by omega
  simp [h2, Nat.shiftRight_eq_div_pow]

/-- `k` bit steps on a register whose low `k` bits are clear only shift. -/
lemma crcBitStep_iterate_shift (k y : Nat) : crcBitStep^[k] (y * 2 ^ k) = y := by
  induction k generalizing y with
  | zero => simp
  | succ n ih =>
    have h : y * 2 ^ (n + 1) = (y * 2 ^ n) * 2 := by ring
    rw [Function.iterate_succ_apply, h, crcBitStep_mul_two, ih]

lemma and_255_eq_mod (x : Nat) : x &&& 255 = x % 256 := by
  have h := Nat.and_pow_two_sub_one_eq_mod x 8
  norm_num at h
  exact h

lemma xor_mod_decomp (x : Nat) : x ^^^ x % 256 = (x >>> 8) * 2 ^ 8 := by
  apply Nat.eq_of_testBit_eq
  intro i
  rw [← Nat.shiftLeft_eq, Nat.testBit_xor]
  rcases Nat.lt_or_ge i 8 with hi | hi
  · have h1 : (x % 256).testBit i = x.testBit i := by
      have h := Nat.testBit_mod_two_pow x 8 i
      norm_num at h
      simp [h, hi]
    have h2 : ((x >>> 8) <<< 8).testBit i = false := by
      simp [Nat.testBit_shiftLeft]
      omega
    simp [h1, h2]
  · have h1 : (x % 256).testBit i = false := by
      have h := Nat.testBit_mod_two_pow x 8 i
      norm_num at h
      simp [h]
      omega
    have h2 : ((x >>> 8) <<< 8).testBit i = x.testBit i := by
      simp [Nat.testBit_shiftLeft, hi, Nat.testBit_shiftRight]
    simp [h1, h2]

set_option maxRecDepth 8192 in
/-- Every entry of the transcribed `crc32_table` equals the eight-fold
bit-serial reduction of its index (so the table in `net.c` is the standard
IEEE 802.3 table, with no transcription error). -/
lemma crc32_table_ok : ∀ i : Fin 256, crc32_table.getD i.val 0 = crcBitStep^[8] i.val := by
  decide

/-- Splitting the register at bit 8: eight bit-serial steps equal a byte shift
of the high bits xored with the table reduction of the low byte. -/
lemma crcBitStep_iterate_split (crc b : Nat) (hb : b < 256) :
    crcBitStep^[8] (crc ^^^ b) = (crc >>> 8) ^^^ crcBitStep^[8] ((crc ^^^ b) &&& 255) := by
  set x := crc ^^^ b with hx
  have hdecomp : x = ((x >>> 8) * 2 ^ 8) ^^^ (x % 256) := by
    rw [← xor_mod_decomp, Nat.xor_assoc, Nat.xor_self, Nat.xor_zero]
  calc crcBitStep^[8] x
      = crcBitStep^[8] (((x >>> 8) * 2 ^ 8) ^^^ (x % 256)) := by rw [← hdecomp]
    _ = crcBitStep^[8] ((x >>> 8) * 2 ^ 8) ^^^ crcBitStep^[8] (x % 256) :=
        crcBitStep_iterate_xor 8 _ _
    _ = (x >>> 8) ^^^ crcBitStep^[8] (x % 256) := by rw [crcBitStep_iterate_shift]
    _ = (crc >>> 8) ^^^ crcBitStep^[8] ((crc ^^^ b) &&& 255) := by
        rw [and_255_eq_mod, hx, xor_shiftRight]
        have h8 : b >>> 8 = 0 := by
          rw [Nat.shiftRight_eq_div_pow]
          omega
        rw [h8, Nat.xor_zero]

/-- The table-driven per-byte update of `calculate_crc32` agrees with the
bit-serial per-byte update of the reference. -/
lemma crc32_update_eq_ref (crc b : Nat) (hb : b < 256) :
    crc32_update crc b = crcRefByte crc b := by
  unfold crc32_update crcRefByte
  have hidx : (crc ^^^ b) &&& 255 < 256 := by
    rw [and_255_eq_mod]
    omega
  have htab := crc32_table_ok ⟨(crc ^^^ b) &&& 255, hidx⟩
  rw [htab, ← crcBitStep_iterate_split crc b hb]

lemma crc32_foldl_eq_ref (data : List Nat) :
    ∀ crc, (∀ b ∈ data, b < 256) →
      data.foldl crc32_update crc = data.foldl crcRefByte crc := by
  induction data with
  | nil => intro crc _; rfl
  | cons b rest ih =>
    intro crc h
    have hb : b < 256 := h b (List.mem_cons_self b rest)
    have hrest : ∀ x ∈ rest, x < 256 := fun x hx => h x (List.mem_cons_of_mem b hx)
    simp only [List.foldl_cons, crc32_update_eq_ref crc b hb]
    exact ih (crcRefByte crc b) hrest

/-- The stored axis value equals the raw byte minus 128: the two
wrap-arounds in `(int8_t)raw - 128` stored into an `int8_t` cancel. -/
lemma decodeAxis_eq (payload i : Nat) : decodeAxis payload i = (byteAt payload i : Int) - 128 := by
  have hb : byteAt payload i < 256 := by
    unfold byteAt
    rw [and_255_eq_mod]
    omega
  unfold decodeAxis int8OfByte wrapInt8
  split_ifs <;> omega

lemma take_of_nil (q : CommandQueue) (h : q.items = []) : q.take = none := by
  simp [CommandQueue.take, h]

lemma take_of_cons (q : CommandQueue) (c : RovCommand) (l : List RovCommand)
    (h : q.items = c :: l) : q.take = some (c, ⟨l⟩) := by
  simp [CommandQueue.take, h]

/-- Any interleaving of operations keeps the queue within capacity. -/
lemma runOps_length_le (ops : List QueueOp) :
    ∀ q : CommandQueue, q.items.length ≤ QUEUE_CAPACITY →
      (runOps ops q).1.items.length ≤ QUEUE_CAPACITY := by
  induction ops with
  | nil => intro q h; exact h
  | cons op rest ih =>
    intro q h
    cases op with
    | put c =>
      by_cases hlt : q.items.length < QUEUE_CAPACITY
      · simp only [runOps, CommandQueue.put, if_pos hlt]
        exact ih ⟨q.items ++ [c]⟩ (by simp; omega)
      · simp only [runOps, CommandQueue.put, if_neg hlt]
        exact ih q h
    | take =>
      cases hq : q.items with
      | nil =>
        simp only [runOps, take_of_nil q hq]
        exact ih q h
      | cons c l =>
        simp only [runOps, take_of_cons q c l hq]
        refine ih ⟨l⟩ ?_
        simp only [hq, List.length_cons] at h
        simpa using Nat.le_of_succ_le h

/-- Conservation invariant: the commands already taken, followed by those
still queued, are the initial contents followed by the accepted ones, in
order. -/
lemma runOps_fifo_general (ops : List QueueOp) :
    ∀ q : CommandQueue,
      (runOps ops q).2.1 ++ (runOps ops q).1.items = q.items ++ (runOps ops q).2.2 := by
  induction ops with
  | nil => intro q; simp [runOps]
  | cons op rest ih =>
    intro q
    cases op with
    | put c =>
      by_cases hlt : q.items.length < QUEUE_CAPACITY
      · simp only [runOps, CommandQueue.put, if_pos hlt, if_true]
        rw [ih ⟨q.items ++ [c]⟩]
        simp
      · simp only [runOps, CommandQueue.put, if_neg hlt, if_false]
        exact ih q
    | take =>
      cases hq : q.items with
      | nil =>
        simp only [runOps, take_of_nil q hq]
        rw [ih q, hq]
      | cons c l =>
        simp only [runOps, take_of_cons q c l hq, hq, List.cons_append]
        exact congrArg (List.cons c) (ih ⟨l⟩)

/-- On the little-endian host, `ntohl` of a 4-byte struct field recovers the
network-order (big-endian) value of the wire bytes. -/
lemma ntohl_leValue (l : List Nat) (hlen : l.length = 4) (hb : ∀ b ∈ l, b < 256) :
    ntohl (leValue l) = beValue l := by
  match l, hlen with
  | [b0, b1, b2, b3], _ =>
    have h0 : b0 < 256 := hb b0 (by simp)
    have h1 : b1 < 256 := hb b1 (by simp)
    have h2 : b2 < 256 := hb b2 (by simp)
    have h3 : b3 < 256 := hb b3 (by simp)
    have hx : leValue [b0, b1, b2, b3] = b0 + 256 * b1 + 65536 * b2 + 16777216 * b3 := by
      simp [leValue]
      ring
    have m0 : (b0 + 256 * b1 + 65536 * b2 + 16777216 * b3) % 256 = b0 := by omega
    have m1 : (b0 + 256 * b1 + 65536 * b2 + 16777216 * b3) / 256 % 256 = b1 := by omega
    have m2 : (b0 + 256 * b1 + 65536 * b2 + 16777216 * b3) / 65536 % 256 = b2 := by omega
    have m3 : (b0 + 256 * b1 + 65536 * b2 + 16777216 * b3) / 16777216 % 256 = b3 := by omega
    rw [hx]
    unfold ntohl
    rw [m0, m1, m2, m3]
    simp [beValue]
    ring

/-! ## Ingress branch lemmas -/

/-- Wrong-length branch of the receive loop (`net.c:333-337`). -/
lemma ingressStep_wrong_length (q : CommandQueue) (d : List Nat) (h : d.length ≠ 16) :
    ingressStep q (RecvResult.data d) = (q, [Event.logWrongSize d.length]) := by
  simp [ingressStep, h]

/-- CRC-mismatch branch of the receive loop (`net.c:324-327`). -/
lemma ingressStep_mismatch (q : CommandQueue) (d : List Nat) (hlen : d.length = 16)
    (hne : calculate_crc32 (d.take 12) ≠ ntohl (leValue (d.drop 12))) :
    ingressStep q (RecvResult.data d) =
      (q, [Event.logPacket (ntohl (leValue (d.take 4)))
             (net_to_host_64 (leValue ((d.drop 4).take 8))) (ntohl (leValue (d.drop 12))),
           Event.logCalcCrc (calculate_crc32 (d.take 12)),
           Event.logCrcMismatch (calculate_crc32 (d.take 12)) (ntohl (leValue (d.drop 12)))]) := by
  simp [ingressStep, hlen, hne]

/-- CRC-match branch of the receive loop (`net.c:321-323`). -/
lemma ingressStep_match (q : CommandQueue) (d : List Nat) (hlen : d.length = 16)
    (heq : calculate_crc32 (d.take 12) = ntohl (leValue (d.drop 12))) :
    ingressStep q (RecvResult.data d) =
      (q, [Event.logPacket (ntohl (leValue (d.take 4)))
             (net_to_host_64 (leValue ((d.drop 4).take 8))) (ntohl (leValue (d.drop 12))),
           Event.logCalcCrc (calculate_crc32 (d.take 12)),
           Event.logCrcMatch, Event.ledToggle]) := by
  simp [ingressStep, hlen, heq]

/-! ## Claims -/

/-- **C2.** For every byte buffer, of any length including zero, the
table-driven `calculate_crc32` of `net.c` (initial register `0xFFFFFFFF`,
polynomial `0xEDB88320` applied LSB-first per byte via the precomputed
256-entry table, final one's complement) returns the same 32-bit value as the
bit-serial reference IEEE 802.3 CRC-32; both are pure functions, so the
computation is deterministic and side-effect free. -/
theorem calculate_crc32_matches_reference (data : List Nat)
    (h : ∀ b ∈ data, b < 256) : calculate_crc32 data = crc32_ref data := by
  unfold calculate_crc32 crc32_ref
  rw [crc32_foldl_eq_ref data 0xFFFFFFFF h]

/-- Witness for C2 on the canonical CRC-32 check vector `"123456789"`,
whose CRC-32 is the published check value `0xCBF43926`. -/
theorem calculate_crc32_matches_reference_witness :
    (∀ b ∈ crcCheckVector, b < 256) ∧
    calculate_crc32 crcCheckVector = crc32_ref crcCheckVector ∧
    calculate_crc32 crcCheckVector = 0xCBF43926 :=
  ⟨by decide, calculate_crc32_matches_reference crcCheckVector (by decide), by decide⟩

/-- **C3.** For every 64-bit payload, the command built by `rov_send_command`
maps axis byte `i` (`i = 0..5`) to the signed value `raw - 128`, passes byte 6
through unchanged as `light` and byte 7 unchanged as `manipulator`, and (being
a total function) never fails; concretely, payload `0xFF` decodes to
`surge = 127` with the remaining axes `-128`. -/
theorem decode_offset_binary_total (sequence payload : Nat) :
    (buildCommand sequence payload).sequence = sequence ∧
    (buildCommand sequence payload).surge = (byteAt payload 0 : Int) - 128 ∧
    (buildCommand sequence payload).sway = (byteAt payload 1 : Int) - 128 ∧
    (buildCommand sequence payload).heave = (byteAt payload 2 : Int) - 128 ∧
    (buildCommand sequence payload).roll = (byteAt payload 3 : Int) - 128 ∧
    (buildCommand sequence payload).pitch = (byteAt payload 4 : Int) - 128 ∧
    (buildCommand sequence payload).yaw = (byteAt payload 5 : Int) - 128 ∧
    (buildCommand sequence payload).light = byteAt payload 6 ∧
    (buildCommand sequence payload).manipulator = byteAt payload 7 ∧
    (buildCommand 2 0xFF).surge = 127 ∧ (buildCommand 2 0xFF).sway = -128 ∧
    (buildCommand 2 0xFF).heave = -128 ∧ (buildCommand 2 0xFF).roll = -128 ∧
    (buildCommand 2 0xFF).pitch = -128 ∧ (buildCommand 2 0xFF).yaw = -128 :=
  ⟨rfl, decodeAxis_eq payload 0, decodeAxis_eq payload 1, decodeAxis_eq payload 2,
   decodeAxis_eq payload 3, decodeAxis_eq payload 4, decodeAxis_eq payload 5,
   rfl, rfl, by decide, by decide, by decide, by decide, by decide, by decide⟩

/-- **C4.** The command queue never exceeds its capacity of 10 under any
sequence of operations, and `put` is non-blocking: on a queue holding 10
items it returns `false` and leaves the queue unchanged. -/
theorem queue_capacity_bound_and_full_put :
    (∀ ops : List QueueOp, (runOps ops ⟨[]⟩).1.items.length ≤ QUEUE_CAPACITY) ∧
    (∀ (q : CommandQueue) (c : RovCommand), q.items.length = QUEUE_CAPACITY →
      q.put c = (q, false)) := by
  constructor
  · intro ops
    exact runOps_length_le ops ⟨[]⟩ (by simp [QUEUE_CAPACITY])
  · intro q c h
    simp [CommandQueue.put, h]

/-- Witness for C4: an 11th `put` on a queue of 10 pending commands fails
and leaves the queue untouched. -/
theorem queue_capacity_bound_and_full_put_witness :
    fullQueue.items.length = QUEUE_CAPACITY ∧
    fullQueue.put (buildCommand 0 0) = (fullQueue, false) :=
  ⟨by decide, queue_capacity_bound_and_full_put.2 fullQueue (buildCommand 0 0) (by decide)⟩

/-- **C5.** For every interleaving of `put` and `take` operations starting
from the empty queue, the commands returned by `take`, followed by those still
queued, are exactly the successfully enqueued commands in enqueue order — so
dequeue order equals enqueue order (FIFO, no reordering). -/
theorem queue_fifo_order (ops : List QueueOp) :
    (runOps ops ⟨[]⟩).2.1 ++ (runOps ops ⟨[]⟩).1.items = (runOps ops ⟨[]⟩).2.2 := by
  simpa using runOps_fifo_general ops ⟨[]⟩

/-- **C6.** A datagram whose length is not 16 bytes is discarded with a log
line and nothing else: the queue is unchanged, no command is enqueued and no
reply is sent; the loop continues with the next receive. -/
theorem wrong_length_discarded (q : CommandQueue) (d : List Nat) (h : d.length ≠ 16) :
    (ingressStep q (RecvResult.data d)).1 = q ∧
    (ingressStep q (RecvResult.data d)).2 = [Event.logWrongSize d.length] ∧
    ∀ e ∈ (ingressStep q (RecvResult.data d)).2,
      e.isQueueInsert = false ∧ e.isSend = false := by
  rw [ingressStep_wrong_length q d h]
  refine ⟨rfl, rfl, ?_⟩
  intro e he
  simp at he
  subst he
  exact ⟨rfl, rfl⟩

/-- Witness for C6 on a 3-byte datagram. -/
theorem wrong_length_discarded_witness :
    (ingressStep ⟨[]⟩ (RecvResult.data [1, 2, 3])).1 = (⟨[]⟩ : CommandQueue) ∧
    (ingressStep ⟨[]⟩ (RecvResult.data [1, 2, 3])).2 = [Event.logWrongSize 3] ∧
    ∀ e ∈ (ingressStep ⟨[]⟩ (RecvResult.data [1, 2, 3])).2,
      e.isQueueInsert = false ∧ e.isSend = false :=
  wrong_length_discarded ⟨[]⟩ [1, 2, 3] (by decide)

/-- **C7.** A 16-byte datagram whose transmitted checksum differs from the
CRC over its first 12 bytes is dropped: both checksum values are logged,
the queue is unchanged, no command is enqueued and no reply is sent. -/
theorem crc_mismatch_discarded (q : CommandQueue) (d : List Nat) (hlen : d.length = 16)
    (hne : calculate_crc32 (d.take 12) ≠ ntohl (leValue (d.drop 12))) :
    (ingressStep q (RecvResult.data d)).1 = q ∧
    Event.logCrcMismatch (calculate_crc32 (d.take 12)) (ntohl (leValue (d.drop 12)))
        ∈ (ingressStep q (RecvResult.data d)).2 ∧
    ∀ e ∈ (ingressStep q (RecvResult.data d)).2,
      e.isQueueInsert = false ∧ e.isSend = false := by
  rw [ingressStep_mismatch q d hlen hne]
  refine ⟨rfl, by simp, ?_⟩
  intro e he
  simp at he
  rcases he with h1 | h1 | h1 <;> subst h1 <;> exact ⟨rfl, rfl⟩

/-- Witness for C7 on the all-zero 16-byte datagram (its trailing checksum
field, 0, does not match the CRC of twelve zero bytes). -/
theorem crc_mismatch_discarded_witness :
    (ingressStep ⟨[]⟩ (RecvResult.data (List.replicate 16 0))).1 = (⟨[]⟩ : CommandQueue) ∧
    Event.logCrcMismatch (calculate_crc32 ((List.replicate 16 0).take 12))
        (ntohl (leValue ((List.replicate 16 0).drop 12)))
      ∈ (ingressStep ⟨[]⟩ (RecvResult.data (List.replicate 16 0))).2 ∧
    ∀ e ∈ (ingressStep ⟨[]⟩ (RecvResult.data (List.replicate 16 0))).2,
      e.isQueueInsert = false ∧ e.isSend = false :=
  crc_mismatch_discarded ⟨[]⟩ (List.replicate 16 0) (by decide) (by decide)

/-- **C8.** For every command, the control worker invokes the six-axis
strategy with the six axis fields, invokes the light driver with `light` iff
`light > 0`, invokes the manipulator driver with `manipulator` iff
`manipulator > 0`, toggles the LED exactly once, and ends the iteration with
the fixed 10 ms delay. -/
theorem control_worker_dispatch (command : RovCommand) :
    Event.callSixDof command.surge command.sway command.heave command.roll
        command.pitch command.yaw ∈ processCommand command ∧
    ((Event.setLight command.light ∈ processCommand command) ↔ 0 < command.light) ∧
    ((Event.setManipulator command.manipulator ∈ processCommand command) ↔
      0 < command.manipulator) ∧
    (processCommand command).count Event.ledToggle = 1 ∧
    (processCommand command).getLast? = some (Event.sleepMs 10) := by
  unfold processCommand rov_6dof_control rov_set_light rov_set_manipulator
  rcases Nat.eq_zero_or_pos command.light with hl | hl <;>
    rcases Nat.eq_zero_or_pos command.manipulator with hm | hm <;>
      simp [hl, hm, List.count_cons, List.count_append, Nat.pos_iff_ne_zero]

/-- **C9.** The checksum validation operates over the raw wire bytes: a
16-byte datagram is accepted (the match branch runs, marked by the LED
toggle) precisely when `calculate_crc32` over the 12 raw bytes as received
equals the network-order (big-endian) value of the trailing 4 bytes — i.e.
the transmitted checksum field after network-to-host conversion. -/
theorem crc_over_raw_wire_bytes (q : CommandQueue) (d : List Nat) (hlen : d.length = 16)
    (hb : ∀ b ∈ d, b < 256) :
    Event.ledToggle ∈ (ingressStep q (RecvResult.data d)).2 ↔
      calculate_crc32 (d.take 12) = beValue (d.drop 12) := by
  have hdrop_len : (d.drop 12).length = 4 := by simp [hlen]
  have hdrop_b : ∀ b ∈ d.drop 12, b < 256 := fun b hbm => hb b (List.mem_of_mem_drop hbm)
  have hnb : ntohl (leValue (d.drop 12)) = beValue (d.drop 12) :=
    ntohl_leValue _ hdrop_len hdrop_b
  rw [← hnb]
  by_cases heq : calculate_crc32 (d.take 12) = ntohl (leValue (d.drop 12))
  · rw [ingressStep_match q d hlen heq]
    simp [heq]
  · rw [ingressStep_mismatch q d hlen heq]
    simp [heq]

/-- Witness for C9 on a valid packet (12 zero bytes plus matching checksum). -/
theorem crc_over_raw_wire_bytes_witness :
    Event.ledToggle ∈ (ingressStep ⟨[]⟩ (RecvResult.data validPacket)).2 ↔
      calculate_crc32 (validPacket.take 12) = beValue (validPacket.drop 12) :=
  crc_over_raw_wire_bytes ⟨[]⟩ validPacket (by decide) (by decide)

/-- **C10.** For every 16-byte datagram that passes checksum validation, the
ingress worker itself toggles the LED exactly once in that loop iteration;
independently, the control worker's per-command dispatch also toggles the LED
exactly once per processed command. -/
theorem valid_packet_led_toggle (q : CommandQueue) (d : List Nat) (hlen : d.length = 16)
    (heq : calculate_crc32 (d.take 12) = ntohl (leValue (d.drop 12))) :
    (ingressStep q (RecvResult.data d)).2.count Event.ledToggle = 1 ∧
    ∀ command : RovCommand, (processCommand command).count Event.ledToggle = 1 := by
  constructor
  · rw [ingressStep_match q d hlen heq]
    simp [List.count_cons]
  · intro command
    unfold processCommand rov_6dof_control rov_set_light rov_set_manipulator
    rcases Nat.eq_zero_or_pos command.light with hl | hl <;>
      rcases Nat.eq_zero_or_pos command.manipulator with hm | hm <;>
        simp [hl, hm, List.count_cons, List.count_append]

/-- Witness for C10 on the valid packet. -/
theorem valid_packet_led_toggle_witness :
    (ingressStep ⟨[]⟩ (RecvResult.data validPacket)).2.count Event.ledToggle = 1 ∧
    ∀ command : RovCommand, (processCommand command).count Event.ledToggle = 1 :=
  valid_packet_led_toggle ⟨[]⟩ validPacket (by decide) (by decide)

/-- **C1** (code bug). On a structurally valid 16-byte datagram with a
correct checksum, the receive loop of `udp_server_thread` leaves the command
queue empty and enqueues nothing — the CRC-match branch (`net.c:321-323`)
never calls `rov_send_command`, although `rov_send_command` itself, applied
to the same decoded fields, would enqueue the built command. -/
theorem valid_packet_not_enqueued :
    validPacket.length = 16 ∧
    calculate_crc32 (validPacket.take 12) = ntohl (leValue (validPacket.drop 12)) ∧
    (ingressStep ⟨[]⟩ (RecvResult.data validPacket)).1.items = [] ∧
    (∀ e ∈ (ingressStep ⟨[]⟩ (RecvResult.data validPacket)).2,
      e.isQueueInsert = false) ∧
    (rov_send_command ⟨[]⟩ 0 0).1.items = [buildCommand 0 0] := by
  decide

end K2
